import Mathlib

/-!
Shallow embedding of the `version` Rust crate (`src/lib.rs`): the `Version`
value type, its fallible parser `Version::build_string`, the comparison
predicate `Version::is_newer`, and the formatter `Version::to_string`.
Strings are modelled as `List Char`; `u8` values as `Nat` kept in range by
the parser.
-/

namespace VersionLib

/-- The `Version` struct: `major`/`minor`/`patch` are `u8` fields (modelled as
`Nat`, the parser only produces values `≤ 255`), `suffix` a `String`. -/
structure Version where
  major : Nat
  minor : Nat
  patch : Nat
  suffix : List Char
  deriving DecidableEq, Repr

/-- The kind of `std::num::ParseIntError` produced by `str::parse::<u8>`:
empty input, a non-digit character, or a value above `u8::MAX`. -/
inductive IntErrorKind where
  | empty
  | invalidDigit
  | posOverflow
  deriving DecidableEq, Repr

/-- The `ParseError` enum: `IntError` wraps the underlying integer-parse failure,
`LengthError` signals a bad dot-split length. -/
inductive ParseError where
  | intError (e : IntErrorKind)
  | lengthError
  deriving DecidableEq, Repr

/-- Rust `str::split(sep)` for a single-character separator, on `List Char`:
always yields at least one piece; a separator at the start/end or two adjacent
separators yield empty pieces. -/
def splitOnChar (sep : Char) : List Char → List (List Char)
  | [] => [[]]
  | c :: rest =>
    match splitOnChar sep rest with
    | [] => [[c]]
    | t :: ts => if c = sep then [] :: t :: ts else (c :: t) :: ts

/-- Whitespace predicate used by `str::trim` (ASCII subset; the source only
ever asks whether the trimmed suffix is empty). -/
def isWs (c : Char) : Bool := c = ' ' || c = '\t' || c = '\n' || c = '\r'

/-- Rust `str::trim`: drop whitespace from both ends. -/
def trim (s : List Char) : List Char :=
  ((s.dropWhile isWs).reverse.dropWhile isWs).reverse

/-- The check `self.suffix.trim().is_empty()` as used in `is_newer` / `to_string`. -/
def trimEmpty (s : List Char) : Bool := (trim s).isEmpty

/-- Digit-accumulation loop of `str::parse::<u8>` (`from_str_radix`): process
characters left to right, fail on a non-digit, fail with overflow as soon as
the accumulated value would exceed `u8::MAX`. -/
def parseU8Digits : Nat → List Char → Except IntErrorKind Nat
  | acc, [] => .ok acc
  | acc, c :: cs =>
    if c.isDigit then
      let acc' := acc * 10 + (c.toNat - 48)
      if acc' ≤ 255 then parseU8Digits acc' cs else .error .posOverflow
    else .error .invalidDigit

/-- Rust `str::parse::<u8>`: empty string is `Empty`; an optional leading `+` is
allowed but must be followed by at least one digit. -/
def parseU8 (s : List Char) : Except IntErrorKind Nat :=
  match s with
  | [] => .error .empty
  | '+' :: rest =>
    match rest with
    | [] => .error .invalidDigit
    | _ => parseU8Digits 0 rest
  | _ => parseU8Digits 0 s

/-- Model of `Version::build_string`, with every slice index access made explicit:
`none` models an out-of-bounds index panic, `some r` the function returning
`r`. The steps mirror the source order: split on `-`, split piece 0 on `.`,
length check, suffix extraction from piece 1 of the dash split, then integer
parsing of dot pieces 0, 1 and (when present) 2, each `?`-propagating its
failure as `IntError`. -/
def buildStringChecked (version : List Char) : Option (Except ParseError Version) :=
  let version_suffix := splitOnChar '-' version
  match version_suffix[0]? with
  | none => none
  | some numPart =>
    let major_minor_patch := splitOnChar '.' numPart
    if major_minor_patch.length < 2 ∨ major_minor_patch.length > 3 then
      some (.error .lengthError)
    else
      match (if version_suffix.length = 1 then some [] else version_suffix[1]?) with
      | none => none
      | some suffix =>
        match major_minor_patch[0]? with
        | none => none
        | some tok0 =>
          match major_minor_patch[1]? with
          | none => none
          | some tok1 =>
            match parseU8 tok0 with
            | .error e => some (.error (.intError e))
            | .ok major =>
              match parseU8 tok1 with
              | .error e => some (.error (.intError e))
              | .ok minor =>
                if major_minor_patch.length > 2 then
                  match major_minor_patch[2]? with
                  | none => none
                  | some tok2 =>
                    match parseU8 tok2 with
                    | .error e => some (.error (.intError e))
                    | .ok patch => some (.ok ⟨major, minor, patch, suffix⟩)
                else
                  some (.ok ⟨major, minor, 0, suffix⟩)

/-- Total form of `Version::build_string` (the index accesses are in bounds,
see `buildStringChecked_eq`): the parser as callers observe it. -/
def buildString (version : List Char) : Except ParseError Version :=
  let version_suffix := splitOnChar '-' version
  let numPart := version_suffix.headD []
  let major_minor_patch := splitOnChar '.' numPart
  if major_minor_patch.length < 2 ∨ major_minor_patch.length > 3 then
    .error .lengthError
  else
    let suffix := if version_suffix.length = 1 then [] else version_suffix[1]?.getD []
    match parseU8 (major_minor_patch.headD []) with
    | .error e => .error (.intError e)
    | .ok major =>
      match parseU8 (major_minor_patch[1]?.getD []) with
      | .error e => .error (.intError e)
      | .ok minor =>
        if major_minor_patch.length > 2 then
          match parseU8 (major_minor_patch[2]?.getD []) with
          | .error e => .error (.intError e)
          | .ok patch => .ok ⟨major, minor, patch, suffix⟩
        else
          .ok ⟨major, minor, 0, suffix⟩

/-- Model of `Version::is_newer`, with the source's exact parenthesisation: answers
whether `other` is a newer version than `self` (lexicographic on the triple,
then the suffix tie-break). -/
def isNewer (self other : Version) : Bool :=
  self.major < other.major
    || (self.major == other.major && self.minor < other.minor
    || (self.major == other.major && self.minor == other.minor && self.patch < other.patch
    || (self.major == other.major && self.minor == other.minor && self.patch == other.patch &&
      (trimEmpty self.suffix && !trimEmpty other.suffix)
    )))

/-- Decimal digit character. -/
def digitChar (n : Nat) : Char := Char.ofNat (48 + n)

/-- Fuel-driven decimal rendering loop (mirrors `Nat::fmt` producing the
decimal digits of a `u8`). -/
def natToDecAux : Nat → Nat → List Char → List Char
  | 0, _, acc => acc
  | fuel + 1, n, acc =>
    let acc' := digitChar (n % 10) :: acc
    if n < 10 then acc' else natToDecAux fuel (n / 10) acc'

/-- Decimal rendering of a numeric field, as `format!("{}")` prints a `u8`. -/
def natToDec (n : Nat) : List Char := natToDecAux (n + 1) n []

/-- Model of `Version::to_string` (the spec's `to_display_string`):
`"{major}.{minor}.{patch}"` when the trimmed suffix is empty, else
`"{major}.{minor}.{patch}-{suffix}"` with the verbatim suffix. -/
def toDisplayString (v : Version) : List Char :=
  if trimEmpty v.suffix then
    natToDec v.major ++ '.' :: natToDec v.minor ++ '.' :: natToDec v.patch
  else
    natToDec v.major ++ '.' :: natToDec v.minor ++ '.' :: natToDec v.patch
      ++ '-' :: v.suffix

instance {ε α : Type} [DecidableEq ε] [DecidableEq α] : DecidableEq (Except ε α) :=
  fun x y =>
    match x, y with
    | .ok a, .ok b =>
      if h : a = b then isTrue (by rw [h]) else isFalse (fun hh => h (Except.ok.inj hh))
    | .error e, .error f =>
      if h : e = f then isTrue (by rw [h]) else isFalse (fun hh => h (Except.error.inj hh))
    | .ok _, .error _ => isFalse (fun hh => Except.noConfusion hh)
    | .error _, .ok _ => isFalse (fun hh => Except.noConfusion hh)

/-- Parse both strings and, when both succeed, compare them with `is_newer`
(`none` when either parse fails): the shape of every doc-test in the spec. -/
def isNewerParsed (a b : List Char) : Option Bool :=
  match buildString a, buildString b with
  | .ok va, .ok vb => some (isNewer va vb)
  | _, _ => none

/-- The dot-separated tokens of the numeric part (the text before the first
`-`) of an input: what the length validation and the integer parses see. -/
def numericTokens (s : List Char) : List (List Char) :=
  splitOnChar '.' (s.takeWhile (fun c => c != '-'))

/-! ### Properties of `splitOnChar` -/

theorem splitOnChar_ne_nil (sep : Char) (s : List Char) : splitOnChar sep s ≠ [] := by
  cases s with
  | nil => simp [splitOnChar]
  | cons c rest =>
    rw [splitOnChar]
    cases h : splitOnChar sep rest with
    | nil => simp
    | cons t ts => by_cases hc : c = sep <;> simp [hc]

theorem splitOnChar_headD (sep : Char) (s : List Char) :
    (splitOnChar sep s).headD [] = s.takeWhile (fun c => c != sep) := by
  induction s with
  | nil => simp [splitOnChar]
  | cons c rest ih =>
    rw [splitOnChar]
    cases h : splitOnChar sep rest with
    | nil => exact absurd h (splitOnChar_ne_nil sep rest)
    | cons t ts =>
      rw [h] at ih
      simp only [List.headD_cons] at ih
      by_cases hc : c = sep
      · simp [hc, List.takeWhile_cons]
      · simp [hc, List.takeWhile_cons, ih]

theorem splitOnChar_of_not_mem (sep : Char) (s : List Char) (hs : sep ∉ s) :
    splitOnChar sep s = [s] := by
  induction s with
  | nil => simp [splitOnChar]
  | cons c rest ih =>
    rw [splitOnChar, ih (fun hmem => hs (List.mem_cons_of_mem _ hmem))]
    have hc : ¬ c = sep := fun hc => hs (hc ▸ List.mem_cons_self _ _)
    simp [hc]

theorem splitOnChar_append_cons (sep : Char) (s t : List Char) (hs : sep ∉ s) :
    splitOnChar sep (s ++ sep :: t) = s :: splitOnChar sep t := by
  induction s with
  | nil =>
    rw [List.nil_append, splitOnChar]
    cases h : splitOnChar sep t with
    | nil => exact absurd h (splitOnChar_ne_nil sep t)
    | cons u us => simp
  | cons c rest ih =>
    have hc : ¬ c = sep := fun hc => hs (hc ▸ List.mem_cons_self _ _)
    rw [List.cons_append, splitOnChar,
      ih (fun hmem => hs (List.mem_cons_of_mem _ hmem))]
    simp [hc]

/-! ### The checked parser never hits an out-of-bounds access -/

theorem buildStringChecked_eq (s : List Char) :
    buildStringChecked s = some (buildString s) := by
  simp only [buildStringChecked, buildString]
  obtain ⟨v0, vs, hv⟩ := List.exists_cons_of_ne_nil (splitOnChar_ne_nil '-' s)
  rw [hv]
  obtain ⟨m0, ms, hm⟩ := List.exists_cons_of_ne_nil (splitOnChar_ne_nil '.' v0)
  simp only [List.getElem?_cons_zero, List.headD_cons]
  rw [hm]
  by_cases hlen : (m0 :: ms).length < 2 ∨ (m0 :: ms).length > 3
  · rw [if_pos hlen, if_pos hlen]
  · rw [if_neg hlen, if_neg hlen]
    push_neg at hlen
    obtain ⟨hlen2, hlen3⟩ := hlen
    cases ms with
    | nil => simp at hlen2
    | cons m1 ms2 =>
      cases ms2 with
      | nil =>
        cases vs with
        | nil =>
          cases hp0 : parseU8 m0 <;> cases hp1 : parseU8 m1 <;> simp [hp0, hp1]
        | cons s1 vs' =>
          cases hp0 : parseU8 m0 <;> cases hp1 : parseU8 m1 <;> simp [hp0, hp1]
      | cons m2 ms3 =>
        cases ms3 with
        | nil =>
          cases vs with
          | nil =>
            cases hp0 : parseU8 m0 <;> cases hp1 : parseU8 m1 <;>
              cases hp2 : parseU8 m2 <;> simp [hp0, hp1, hp2]
          | cons s1 vs' =>
            cases hp0 : parseU8 m0 <;> cases hp1 : parseU8 m1 <;>
              cases hp2 : parseU8 m2 <;> simp [hp0, hp1, hp2]
        | cons m3 ms4 => simp at hlen3

/-! ### Characterization of `buildString` by the shape of its splits -/

/-- The suffix `build_string` stores: empty when the dash split has a single
piece, otherwise piece 1 of the dash split. -/
def suffixOf (s : List Char) : List Char :=
  if (splitOnChar '-' s).length = 1 then [] else (splitOnChar '-' s)[1]?.getD []

theorem numericTokens_eq_split (s : List Char) :
    splitOnChar '.' ((splitOnChar '-' s).headD []) = numericTokens s := by
  rw [splitOnChar_headD, numericTokens]

theorem buildString_bad_length (s : List Char)
    (h : (numericTokens s).length < 2 ∨ (numericTokens s).length > 3) :
    buildString s = .error .lengthError := by
  simp only [buildString, numericTokens_eq_split]
  rw [if_pos h]

theorem buildString_two_tokens (s t0 t1 : List Char) (h : numericTokens s = [t0, t1]) :
    buildString s =
      match parseU8 t0 with
      | .error e => .error (.intError e)
      | .ok major =>
        match parseU8 t1 with
        | .error e => .error (.intError e)
        | .ok minor => .ok ⟨major, minor, 0, suffixOf s⟩ := by
  simp only [buildString, numericTokens_eq_split, h, suffixOf, List.length_cons,
    List.length_nil, List.getElem?_cons_zero, List.getElem?_cons_succ, List.headD_cons,
    Option.getD_some]
  norm_num

theorem buildString_three_tokens (s t0 t1 t2 : List Char)
    (h : numericTokens s = [t0, t1, t2]) :
    buildString s =
      match parseU8 t0 with
      | .error e => .error (.intError e)
      | .ok major =>
        match parseU8 t1 with
        | .error e => .error (.intError e)
        | .ok minor =>
          match parseU8 t2 with
          | .error e => .error (.intError e)
          | .ok patch => .ok ⟨major, minor, patch, suffixOf s⟩ := by
  simp only [buildString, numericTokens_eq_split, h, suffixOf, List.length_cons,
    List.length_nil, List.getElem?_cons_zero, List.getElem?_cons_succ, List.headD_cons,
    Option.getD_some]
  norm_num

/-! ### Characterization of `is_newer` -/

theorem isNewer_iff (a b : Version) :
    isNewer a b = true ↔
      (a.major < b.major ∨
       (a.major = b.major ∧ a.minor < b.minor) ∨
       (a.major = b.major ∧ a.minor = b.minor ∧ a.patch < b.patch) ∨
       (a.major = b.major ∧ a.minor = b.minor ∧ a.patch = b.patch ∧
        trimEmpty a.suffix = true ∧ trimEmpty b.suffix = false)) := by
  simp only [isNewer, Bool.or_eq_true, Bool.and_eq_true, decide_eq_true_eq,
    beq_iff_eq, Bool.not_eq_true', and_assoc]

theorem buildString_ok_suffix (s : List Char) (v : Version)
    (h : buildString s = .ok v) : v.suffix = suffixOf s := by
  match hnt : numericTokens s with
  | [] =>
    rw [buildString_bad_length s (by rw [hnt]; simp)] at h
    exact absurd h (by simp)
  | [t0] =>
    rw [buildString_bad_length s (by rw [hnt]; simp)] at h
    exact absurd h (by simp)
  | [t0, t1] =>
    rw [buildString_two_tokens s t0 t1 hnt] at h
    cases hp0 : parseU8 t0 <;> rw [hp0] at h
    · exact absurd h (by simp)
    · cases hp1 : parseU8 t1 <;> rw [hp1] at h
      · exact absurd h (by simp)
      · injection h with h'
        rw [← h']
  | [t0, t1, t2] =>
    rw [buildString_three_tokens s t0 t1 t2 hnt] at h
    cases hp0 : parseU8 t0 <;> rw [hp0] at h
    · exact absurd h (by simp)
    · cases hp1 : parseU8 t1 <;> rw [hp1] at h
      · exact absurd h (by simp)
      · cases hp2 : parseU8 t2 <;> rw [hp2] at h
        · exact absurd h (by simp)
        · injection h with h'
          rw [← h']
  | t0 :: t1 :: t2 :: t3 :: ts =>
    rw [buildString_bad_length s (by rw [hnt]; simp)] at h
    exact absurd h (by simp)

/-! ### takeWhile facts derived from the split lemmas -/

theorem takeWhile_ne_of_not_mem (sep : Char) (s : List Char) (hs : sep ∉ s) :
    s.takeWhile (fun c => c != sep) = s := by
  have h := splitOnChar_headD sep s
  rw [splitOnChar_of_not_mem sep s hs] at h
  simpa using h.symm

theorem takeWhile_ne_append (sep : Char) (s t : List Char) (hs : sep ∉ s) :
    (s ++ sep :: t).takeWhile (fun c => c != sep) = s := by
  have h := splitOnChar_headD sep (s ++ sep :: t)
  rw [splitOnChar_append_cons sep s t hs] at h
  simpa using h.symm

theorem mem_of_mem_takeWhile {c : Char} {p : Char → Bool} :
    ∀ {s : List Char}, c ∈ s.takeWhile p → c ∈ s
  | [], h => by exact absurd h (by simp)
  | d :: rest, h => by
    rw [List.takeWhile_cons] at h
    by_cases hp : p d
    · rw [if_pos hp] at h
      rcases List.mem_cons.1 h with h | h
      · exact h ▸ List.mem_cons_self _ _
      · exact List.mem_cons_of_mem _ (mem_of_mem_takeWhile h)
    · rw [if_neg hp] at h
      exact absurd h (List.not_mem_nil _)

/-! ### Decimal rendering of `u8` values -/

set_option maxRecDepth 100000 in
theorem natToDec_facts : ∀ n < 256,
    '-' ∉ natToDec n ∧ '.' ∉ natToDec n ∧ parseU8 (natToDec n) = .ok n := by
  decide

/-! ### Claim theorems -/

/-- C1 (counterexample): the claim reads `is_newer` as "self is strictly more
recent than other", making `parse("1.0.0").is_newer(parse("1.1.0"))` `false`.
The code evaluates `self.major < other.major || ...`, i.e. it answers whether
*other* is the more recent version: on these inputs it returns `true`, and
`false` in the opposite direction. -/
theorem isNewer_direction_counterexample :
    buildString ("1.0.0").data = .ok ⟨1, 0, 0, []⟩ ∧
    buildString ("1.1.0").data = .ok ⟨1, 1, 0, []⟩ ∧
    isNewer ⟨1, 0, 0, []⟩ ⟨1, 1, 0, []⟩ = true ∧
    isNewer ⟨1, 1, 0, []⟩ ⟨1, 0, 0, []⟩ = false := by
  decide

/-- C1 (amended): for every two versions `a` and `b` with distinct numeric
triples, `a.is_newer(&b)` returns `true` iff `b` is strictly more recent than
`a` on the lexicographic order of `(major, minor, patch)` with major most
significant; in particular `parse("1.0.0").is_newer(&parse("1.1.0"))` returns
`true` and `parse("1.1.0").is_newer(&parse("1.0.0"))` returns `false`. -/
theorem isNewer_lex_reversed :
    (∀ a b : Version,
      (a.major, a.minor, a.patch) ≠ (b.major, b.minor, b.patch) →
      (isNewer a b = true ↔
        (a.major < b.major ∨
         (a.major = b.major ∧
          (a.minor < b.minor ∨ (a.minor = b.minor ∧ a.patch < b.patch)))))) ∧
    isNewerParsed ("1.0.0").data ("1.1.0").data = some true ∧
    isNewerParsed ("1.1.0").data ("1.0.0").data = some false := by
  refine ⟨fun a b hne => ?_, by decide, by decide⟩
  rw [isNewer_iff]
  constructor
  · rintro (h | ⟨h1, h2⟩ | ⟨h1, h2, h3⟩ | ⟨h1, h2, h3, _⟩)
    · exact Or.inl h
    · exact Or.inr ⟨h1, Or.inl h2⟩
    · exact Or.inr ⟨h1, Or.inr ⟨h2, h3⟩⟩
    · exact absurd (by rw [h1, h2, h3]) hne
  · rintro (h | ⟨h1, h2 | ⟨h2, h3⟩⟩)
    · exact Or.inl h
    · exact Or.inr (Or.inl ⟨h1, h2⟩)
    · exact Or.inr (Or.inr (Or.inl ⟨h1, h2, h3⟩))

/-- Witness for the amended C1 theorem at the concrete pair
`(1.0.0, 2.0.0)`. -/
theorem isNewer_lex_reversed_witness :
    isNewer ⟨1, 0, 0, []⟩ ⟨2, 0, 0, []⟩ = true :=
  (isNewer_lex_reversed.1 ⟨1, 0, 0, []⟩ ⟨2, 0, 0, []⟩ (by decide)).mpr
    (Or.inl (by decide))

/-- C2: for every two versions with equal numeric triples, `a.is_newer(&b)`
returns `true` iff `a`'s suffix trims to empty and `b`'s does not; in
particular `parse("1.0.0").is_newer(&parse("1.0.0-beta"))` returns `true` and
`parse("1.0.0-beta").is_newer(&parse("1.0.0"))` returns `false`. -/
theorem isNewer_suffix_tiebreak :
    (∀ a b : Version, a.major = b.major → a.minor = b.minor → a.patch = b.patch →
      (isNewer a b = true ↔
        (trimEmpty a.suffix = true ∧ trimEmpty b.suffix = false))) ∧
    isNewerParsed ("1.0.0").data ("1.0.0-beta").data = some true ∧
    isNewerParsed ("1.0.0-beta").data ("1.0.0").data = some false := by
  refine ⟨fun a b h1 h2 h3 => ?_, by decide, by decide⟩
  rw [isNewer_iff]
  simp [h1, h2, h3]

/-- Witness for the C2 theorem at the concrete pair
`(1.0.0, 1.0.0-b)`. -/
theorem isNewer_suffix_tiebreak_witness :
    isNewer ⟨1, 0, 0, []⟩ ⟨1, 0, 0, ('b' :: [])⟩ = true :=
  (isNewer_suffix_tiebreak.1 ⟨1, 0, 0, []⟩ ⟨1, 0, 0, ('b' :: [])⟩ rfl rfl rfl).mpr
    (by decide)

/-- C3: `is_newer` is not a total ordering predicate: with equal numeric
triples and suffixes that are both trim-empty or both trim-non-empty, both
directions return `false`; every version compares `false` against itself; and
there are pairs of distinct versions on which both directions are `false`. -/
theorem isNewer_not_total_pred :
    (∀ a b : Version, a.major = b.major → a.minor = b.minor → a.patch = b.patch →
      trimEmpty a.suffix = trimEmpty b.suffix →
      isNewer a b = false ∧ isNewer b a = false) ∧
    (∀ v : Version, isNewer v v = false) ∧
    (∃ a b : Version, isNewer a b = false ∧ isNewer b a = false ∧ a ≠ b) := by
  refine ⟨fun a b h1 h2 h3 h4 => ?_, fun v => ?_,
    ⟨⟨1, 0, 0, ('a' :: [])⟩, ⟨1, 0, 0, ('b' :: [])⟩, by decide⟩⟩
  · constructor <;> (rw [← Bool.not_eq_true, isNewer_iff]; simp [h1, h2, h3, h4])
  · rw [← Bool.not_eq_true, isNewer_iff]; simp

/-- Witness for the C3 theorem: a version compared against itself. -/
theorem isNewer_not_total_pred_witness :
    isNewer ⟨1, 0, 0, []⟩ ⟨1, 0, 0, []⟩ = false :=
  (isNewer_not_total_pred.1 ⟨1, 0, 0, []⟩ ⟨1, 0, 0, []⟩ rfl rfl rfl rfl).1

/-- C4 (counterexample): the claim demands that parsing `"1.0.0-beta-2"`
store the suffix `"beta-2"`; the code stores only `"beta"`, the dash-split
piece between the first and second `-`. -/
theorem suffix_split_counterexample :
    buildString ("1.0.0-beta-2").data = .ok ⟨1, 0, 0, ("beta").data⟩ ∧
    ("beta").data ≠ ("beta-2").data := by
  decide

/-- C4 (amended): for every input containing a `-`, parse stores as suffix
the text after the first `-` up to (and not including) the next `-` if any,
discarding the rest; parsing `"1.0.0-beta-2"` stores suffix `"beta"`. -/
theorem suffix_after_first_dash_amended (pre rest : List Char) (v : Version)
    (hpre : '-' ∉ pre) (h : buildString (pre ++ '-' :: rest) = .ok v) :
    v.suffix = rest.takeWhile (fun c => c != '-') := by
  rw [buildString_ok_suffix _ _ h, suffixOf, splitOnChar_append_cons '-' pre rest hpre]
  obtain ⟨u, us, hu⟩ := List.exists_cons_of_ne_nil (splitOnChar_ne_nil '-' rest)
  have hhead := splitOnChar_headD '-' rest
  rw [hu] at hhead
  simp only [List.headD_cons] at hhead
  rw [hu]
  simp [hhead]

/-- Witness for the amended C4 theorem on the input `"1.0.0-beta-2"`. -/
theorem suffix_after_first_dash_amended_witness :
    (⟨1, 0, 0, ("beta").data⟩ : Version).suffix =
      ("beta-2").data.takeWhile (fun c => c != '-') :=
  suffix_after_first_dash_amended ("1.0.0").data ("beta-2").data
    ⟨1, 0, 0, ("beta").data⟩ (by decide) (by decide)

/-- C5: the numeric part is split on `.`; fewer than 2 or more than 3 tokens
fail with `LengthError`; 2 tokens parse as `(major, minor)` with `patch`
defaulted to `0`; 3 tokens parse as `(major, minor, patch)`; an input with no
`.` fails the length validation; `parse("1-beta")` and `parse("1.2.3.4")`
fail with `LengthError`. -/
theorem length_validation :
    (∀ s : List Char, (numericTokens s).length < 2 ∨ (numericTokens s).length > 3 →
      buildString s = .error .lengthError) ∧
    (∀ (s t0 t1 : List Char) (v : Version), numericTokens s = [t0, t1] →
      buildString s = .ok v →
      parseU8 t0 = .ok v.major ∧ parseU8 t1 = .ok v.minor ∧ v.patch = 0) ∧
    (∀ (s t0 t1 t2 : List Char) (v : Version), numericTokens s = [t0, t1, t2] →
      buildString s = .ok v →
      parseU8 t0 = .ok v.major ∧ parseU8 t1 = .ok v.minor ∧
        parseU8 t2 = .ok v.patch) ∧
    (∀ s : List Char, '.' ∉ s → buildString s = .error .lengthError) ∧
    buildString ("1-beta").data = .error .lengthError ∧
    buildString ("1.2.3.4").data = .error .lengthError := by
  refine ⟨buildString_bad_length, fun s t0 t1 v hnt h => ?_,
    fun s t0 t1 t2 v hnt h => ?_, fun s hdot => ?_, by decide, by decide⟩
  · rw [buildString_two_tokens s t0 t1 hnt] at h
    cases hp0 : parseU8 t0 <;> rw [hp0] at h
    · exact absurd h (by simp)
    · cases hp1 : parseU8 t1 <;> rw [hp1] at h
      · exact absurd h (by simp)
      · injection h with h'
        rw [← h']
        exact ⟨rfl, rfl, rfl⟩
  · rw [buildString_three_tokens s t0 t1 t2 hnt] at h
    cases hp0 : parseU8 t0 <;> rw [hp0] at h
    · exact absurd h (by simp)
    · cases hp1 : parseU8 t1 <;> rw [hp1] at h
      · exact absurd h (by simp)
      · cases hp2 : parseU8 t2 <;> rw [hp2] at h
        · exact absurd h (by simp)
        · injection h with h'
          rw [← h']
          exact ⟨rfl, rfl, rfl⟩
  · apply buildString_bad_length
    left
    rw [numericTokens,
      splitOnChar_of_not_mem '.' _ (fun hmem => hdot (mem_of_mem_takeWhile hmem))]
    simp

/-- Witness for the C5 theorem: `"1.2"` parses with patch defaulted to 0. -/
theorem length_validation_witness :
    parseU8 ('1' :: []) = .ok (⟨1, 2, 0, []⟩ : Version).major ∧
    parseU8 ('2' :: []) = .ok (⟨1, 2, 0, []⟩ : Version).minor ∧
    (⟨1, 2, 0, []⟩ : Version).patch = 0 :=
  length_validation.2.1 ("1.2").data ('1' :: []) ('2' :: []) ⟨1, 2, 0, []⟩
    (by decide) (by decide)

/-- C6: with 2 or 3 dot tokens, any token that fails to parse as a `u8`
makes `build_string` fail with `IntError` wrapping the failure of one of the
tokens (the first failing one); `parse("homo.114514.1919810")` fails with
`IntError`. -/
theorem int_validation :
    (∀ (s t0 t1 : List Char), numericTokens s = [t0, t1] →
      (∃ e, parseU8 t0 = .error e ∨ parseU8 t1 = .error e) →
      ∃ e, buildString s = .error (.intError e) ∧
        (parseU8 t0 = .error e ∨ parseU8 t1 = .error e)) ∧
    (∀ (s t0 t1 t2 : List Char), numericTokens s = [t0, t1, t2] →
      (∃ e, parseU8 t0 = .error e ∨ parseU8 t1 = .error e ∨ parseU8 t2 = .error e) →
      ∃ e, buildString s = .error (.intError e) ∧
        (parseU8 t0 = .error e ∨ parseU8 t1 = .error e ∨ parseU8 t2 = .error e)) ∧
    buildString ("homo.114514.1919810").data = .error (.intError .invalidDigit) := by
  refine ⟨fun s t0 t1 hnt hex => ?_, fun s t0 t1 t2 hnt hex => ?_, by decide⟩
  · cases hp0 : parseU8 t0 with
    | error e0 =>
      exact ⟨e0, by rw [buildString_two_tokens s t0 t1 hnt, hp0], Or.inl rfl⟩
    | ok n0 =>
      cases hp1 : parseU8 t1 with
      | error e1 =>
        exact ⟨e1, by rw [buildString_two_tokens s t0 t1 hnt, hp0, hp1], Or.inr rfl⟩
      | ok n1 =>
        obtain ⟨e, he | he⟩ := hex
        · rw [hp0] at he; exact absurd he (by simp)
        · rw [hp1] at he; exact absurd he (by simp)
  · cases hp0 : parseU8 t0 with
    | error e0 =>
      exact ⟨e0, by rw [buildString_three_tokens s t0 t1 t2 hnt, hp0], Or.inl rfl⟩
    | ok n0 =>
      cases hp1 : parseU8 t1 with
      | error e1 =>
        exact ⟨e1, by rw [buildString_three_tokens s t0 t1 t2 hnt, hp0, hp1],
          Or.inr (Or.inl rfl)⟩
      | ok n1 =>
        cases hp2 : parseU8 t2 with
        | error e2 =>
          exact ⟨e2, by rw [buildString_three_tokens s t0 t1 t2 hnt, hp0, hp1, hp2],
            Or.inr (Or.inr rfl)⟩
        | ok n2 =>
          obtain ⟨e, he | he | he⟩ := hex
          · rw [hp0] at he; exact absurd he (by simp)
          · rw [hp1] at he; exact absurd he (by simp)
          · rw [hp2] at he; exact absurd he (by simp)

/-- Witness for the C6 theorem: `"x.1"` fails on its first token. -/
theorem int_validation_witness :
    ∃ e, buildString ("x.1").data = .error (.intError e) ∧
      (parseU8 ('x' :: []) = .error e ∨ parseU8 ('1' :: []) = .error e) :=
  int_validation.1 ("x.1").data ('x' :: []) ('1' :: []) (by decide)
    ⟨.invalidDigit, Or.inl (by decide)⟩

/-- C10: when the input has two or more `-` characters, the stored suffix is
exactly the text strictly between the first and second `-`; parsing
`"1.0.0-beta-2"` yields suffix `"beta"`, and formatting that result yields
`"1.0.0-beta"`. -/
theorem suffix_discards_after_second_dash :
    (∀ (pre mid post : List Char) (v : Version), '-' ∉ pre → '-' ∉ mid →
      buildString (pre ++ '-' :: (mid ++ '-' :: post)) = .ok v → v.suffix = mid) ∧
    buildString ("1.0.0-beta-2").data = .ok ⟨1, 0, 0, ("beta").data⟩ ∧
    toDisplayString ⟨1, 0, 0, ("beta").data⟩ = ("1.0.0-beta").data := by
  refine ⟨fun pre mid post v hpre hmid h => ?_, by decide, by decide⟩
  rw [buildString_ok_suffix _ _ h, suffixOf, splitOnChar_append_cons '-' pre _ hpre,
    splitOnChar_append_cons '-' mid post hmid]
  simp

/-- Witness for the C10 theorem on the input `"1.0.0-beta-2"`. -/
theorem suffix_discards_after_second_dash_witness :
    (⟨1, 0, 0, ("beta").data⟩ : Version).suffix = ("beta").data :=
  suffix_discards_after_second_dash.1 ("1.0.0").data ("beta").data ('2' :: [])
    ⟨1, 0, 0, ("beta").data⟩ (by decide) (by decide) (by decide)

/-- C7 (counterexample): the claim promises a parse/format round trip for
every suffix free of `-` and `.`; it fails for the whitespace-only suffix
`" "`: formatting drops it (the trimmed suffix is empty), so re-parsing
yields an empty suffix instead. -/
theorem roundtrip_counterexample :
    ('-' ∉ (" ").data ∧ '.' ∉ (" ").data ∧
      (⟨1, 2, 3, (" ").data⟩ : Version).major ≤ 255 ∧
      (⟨1, 2, 3, (" ").data⟩ : Version).minor ≤ 255 ∧
      (⟨1, 2, 3, (" ").data⟩ : Version).patch ≤ 255) ∧
    buildString (toDisplayString ⟨1, 2, 3, (" ").data⟩) ≠
      .ok ⟨1, 2, 3, (" ").data⟩ := by
  decide

/-- C7 (amended): for every `major`, `minor`, `patch` in 0–255 and every
suffix containing no `-` and no `.` that is moreover empty or not
whitespace-only, parsing the formatted string of
`Version{major, minor, patch, suffix}` succeeds and returns a `Version`
whose four fields equal the original's. -/
theorem parse_format_roundtrip (ma mi pa : Nat) (suffix : List Char)
    (hma : ma ≤ 255) (hmi : mi ≤ 255) (hpa : pa ≤ 255)
    (hdash : '-' ∉ suffix) (hdot : '.' ∉ suffix)
    (hws : suffix = [] ∨ trimEmpty suffix = false) :
    buildString (toDisplayString ⟨ma, mi, pa, suffix⟩) = .ok ⟨ma, mi, pa, suffix⟩ := by
  obtain ⟨hAd, hAp, hAok⟩ := natToDec_facts ma (Nat.lt_succ_of_le hma)
  obtain ⟨hBd, hBp, hBok⟩ := natToDec_facts mi (Nat.lt_succ_of_le hmi)
  obtain ⟨hCd, hCp, hCok⟩ := natToDec_facts pa (Nat.lt_succ_of_le hpa)
  have hdd : ('-' : Char) ≠ '.' := by decide
  have hdashN :
      '-' ∉ natToDec ma ++ '.' :: (natToDec mi ++ '.' :: natToDec pa) := by
    intro hmem
    simp only [List.mem_append, List.mem_cons] at hmem
    rcases hmem with h | h | h | h | h
    exacts [hAd h, hdd h, hBd h, hdd h, hCd h]
  have hsplitN :
      splitOnChar '.' (natToDec ma ++ '.' :: (natToDec mi ++ '.' :: natToDec pa)) =
        [natToDec ma, natToDec mi, natToDec pa] := by
    rw [splitOnChar_append_cons '.' _ _ hAp, splitOnChar_append_cons '.' _ _ hBp,
      splitOnChar_of_not_mem '.' _ hCp]
  rcases hws with h | h
  · subst h
    rw [show toDisplayString ⟨ma, mi, pa, []⟩ =
        natToDec ma ++ '.' :: (natToDec mi ++ '.' :: natToDec pa) from by
      simp [toDisplayString, trimEmpty, trim]]
    have hnum :
        numericTokens (natToDec ma ++ '.' :: (natToDec mi ++ '.' :: natToDec pa)) =
          [natToDec ma, natToDec mi, natToDec pa] := by
      rw [numericTokens, takeWhile_ne_of_not_mem '-' _ hdashN, hsplitN]
    have hsuf :
        suffixOf (natToDec ma ++ '.' :: (natToDec mi ++ '.' :: natToDec pa)) = [] := by
      rw [suffixOf, splitOnChar_of_not_mem '-' _ hdashN]
      simp
    rw [buildString_three_tokens _ _ _ _ hnum, hAok, hBok, hCok, hsuf]
  · rw [show toDisplayString ⟨ma, mi, pa, suffix⟩ =
        (natToDec ma ++ '.' :: (natToDec mi ++ '.' :: natToDec pa)) ++
          '-' :: suffix from by
      simp [toDisplayString, h, List.append_assoc]]
    have hnum :
        numericTokens ((natToDec ma ++ '.' :: (natToDec mi ++ '.' :: natToDec pa)) ++
            '-' :: suffix) = [natToDec ma, natToDec mi, natToDec pa] := by
      rw [numericTokens, takeWhile_ne_append '-' _ _ hdashN, hsplitN]
    have hsuf :
        suffixOf ((natToDec ma ++ '.' :: (natToDec mi ++ '.' :: natToDec pa)) ++
            '-' :: suffix) = suffix := by
      rw [suffixOf, splitOnChar_append_cons '-' _ _ hdashN,
        splitOnChar_of_not_mem '-' _ hdash]
      simp
    rw [buildString_three_tokens _ _ _ _ hnum, hAok, hBok, hCok, hsuf]

/-- Witness for the amended C7 theorem at `Version{1, 0, 0, "beta"}`. -/
theorem parse_format_roundtrip_witness :
    buildString (toDisplayString ⟨1, 0, 0, ("beta").data⟩) =
      .ok ⟨1, 0, 0, ("beta").data⟩ :=
  parse_format_roundtrip 1 0 0 ("beta").data (by decide) (by decide) (by decide)
    (by decide) (by decide) (Or.inr (by decide))

/-- C8: formatting is total and yields `"{major}.{minor}.{patch}"` when the
suffix trims to empty, otherwise `"{major}.{minor}.{patch}-{suffix}"` with
the verbatim suffix; `parse("1.0-beta")` succeeds with patch 0 and suffix
`"beta"`, and formats back to `"1.0.0-beta"`. -/
theorem to_display_string_spec :
    (∀ v : Version, toDisplayString v =
      natToDec v.major ++ '.' :: natToDec v.minor ++ '.' :: natToDec v.patch
        ++ (if trimEmpty v.suffix then [] else '-' :: v.suffix)) ∧
    buildString ("1.0-beta").data = .ok ⟨1, 0, 0, ("beta").data⟩ ∧
    toDisplayString ⟨1, 0, 0, ("beta").data⟩ = ("1.0.0-beta").data := by
  refine ⟨fun v => ?_, by decide, by decide⟩
  by_cases h : trimEmpty v.suffix
  · rw [toDisplayString, if_pos h, if_pos h]
    simp
  · rw [toDisplayString, if_neg h, if_neg h]

/-- C9: `build_string` is total and never panics: modelling each slice index
access explicitly (`none` = out-of-bounds panic), the checked parser always
returns `some` result, and that result is the parser's value — every index
access is in bounds because each split yields at least one piece, piece 1 of
the dash split is read only behind the length test, and dot pieces 0–2 are
read only after the 2-or-3 length validation. -/
theorem build_string_no_panic (s : List Char) :
    (buildStringChecked s).isSome ∧ buildStringChecked s = some (buildString s) :=
  ⟨by rw [buildStringChecked_eq s]; rfl, buildStringChecked_eq s⟩

end VersionLib
